import Mathlib

/-!
A shallow embedding of the analysis half of
src/ec2-runner/analyze_cloudtrail_events.py: the three extractors
(extract_run_instances_data, find_assume_role_events,
find_get_parameter_events) and the correlation loop inside analyze.

Modelling conventions:
* A raw CloudTrail record is represented by the decoded body of its
  CloudTrailEvent field; a record whose embedded JSON body fails to decode
  (or whose CloudTrailEvent key is missing) is represented by none.
* JSON object fields are Option-valued; an absent field is none.  Python
  truthiness of a string (the empty string is falsy) is checked explicitly
  wherever the source tests truthiness.  An empty JSON object collapses to
  an object whose fields are all none; this is output-equivalent because
  every place the source tests truthiness of an object afterwards also
  tests the individual fields it reads from that object.
* Python dicts become association lists that keep first-insertion order
  and update values in place; Python sets become duplicate-free lists.
* A KeyError or json.JSONDecodeError is caught per record in the source
  and makes the loop skip the record; both collapse to a skip outcome.
-/

namespace CloudTrail

structure Credentials where
  sessionToken : Option String
  accessKeyId : Option String
  deriving DecidableEq

structure TagItem where
  key : Option String
  value : Option String
  deriving DecidableEq

structure IamInstanceProfile where
  arn : Option String
  id : Option String
  deriving DecidableEq

structure TagSet where
  items : List TagItem
  deriving DecidableEq

structure InstanceItem where
  instanceId : Option String
  iamInstanceProfile : Option IamInstanceProfile
  tagSet : Option TagSet
  deriving DecidableEq

structure InstancesSet where
  items : List InstanceItem
  deriving DecidableEq

structure ResponseElements where
  instancesSet : Option InstancesSet
  credentials : Option Credentials
  deriving DecidableEq

structure RequestParameters where
  roleArn : Option String
  name : Option String
  deriving DecidableEq

structure CTEvent where
  eventName : Option String
  requestParameters : Option RequestParameters
  responseElements : Option ResponseElements
  deriving DecidableEq

/-- A record of one of the loaded event files: none when the embedded
CloudTrailEvent body cannot be decoded. -/
abbrev Record := Option CTEvent

/-- Containment of a character list as a contiguous slice of another. -/
def listInfixOf (n : List Char) : List Char → Bool
  | [] => n.isEmpty
  | c :: rest => n.isPrefixOf (c :: rest) || listInfixOf n rest

/-- Python substring containment: the test `needle in hay` on strings. -/
def strIn (needle hay : String) : Bool :=
  listInfixOf needle.toList hay.toList

/-- Python dict lookup on an association list. -/
def lookupA {α : Type} (l : List (String × α)) (k : String) : Option α :=
  match l with
  | [] => none
  | (k', v) :: rest => if k' = k then some v else lookupA rest k

/-- Python dict assignment d[k] = v: replaces the value in place when the
key exists (keeping its original position) and appends otherwise. -/
def updateA {α : Type} (l : List (String × α)) (k : String) (v : α) :
    List (String × α) :=
  match l with
  | [] => [(k, v)]
  | (k', v') :: rest =>
      if k' = k then (k, v) :: rest else (k', v') :: updateA rest k v

/-- defaultdict(list) append d[k].append(v): extends the list stored under
k, creating a singleton list when the key is absent. -/
def appendA (l : List (String × List String)) (k : String) (v : String) :
    List (String × List String) :=
  match l with
  | [] => [(k, [v])]
  | (k', vs) :: rest =>
      if k' = k then (k, vs ++ [v]) :: rest else (k', vs) :: appendA rest k v

/-- Python set(...) of a list of strings: duplicates removed.  The source
iterates sets only to test membership or to fan records out to per-key
lists, so no claim depends on the (unspecified) CPython iteration order;
first-occurrence order is a faithful representative. -/
def setOf (l : List String) : List String :=
  l.foldl (fun acc x => if x ∈ acc then acc else acc ++ [x]) []

/-- The tenant-tag scan of extract_run_instances_data:
next((tag[value] for tag in tags if tag.get(key) == TAG), None).
The outer none is the KeyError raised when the first matching tag has no
value key (the record is then skipped); the inner option is the result of
next, with none as its default. -/
def findEnvTag : List TagItem → Option (Option String)
  | [] => some none
  | t :: ts =>
      if t.key = some "gitpod.dev/environment-id" then
        match t.value with
        | none => none
        | some v => some (some v)
      else findEnvTag ts

/-- The loop body of extract_run_instances_data for one record: the fact
(instanceId, (profileArn, environmentId)) it contributes, or none when the
record is skipped (defensive checks, missing fields, falsy strings, or a
caught per-record exception).  Note the source never consults eventName
here.  The source test `not items[0]` (a falsy first item) is subsumed by
the instanceId check that immediately follows it. -/
def runInstancesFact (ev : Record) : Option (String × String × String) :=
  match ev with
  | none => none
  | some ct =>
  match ct.responseElements with
  | none => none
  | some re =>
  match re.instancesSet with
  | none => none
  | some iset =>
  match iset.items with
  | [] => none
  | inst :: _ =>
  match inst.instanceId with
  | none => none
  | some iid =>
  if iid = "" then none else
  match inst.iamInstanceProfile with
  | none => none
  | some prof =>
  match findEnvTag ((inst.tagSet.map TagSet.items).getD []) with
  | none => none
  | some envOpt =>
  match prof.arn, envOpt with
  | some arn, some env =>
      if arn = "" then none else if env = "" then none
      else some (iid, arn, env)
  | some _, none => none
  | none, _ => none

/-- extract_run_instances_data: fold the per-record facts into a dict
keyed by instance id. -/
def extract_run_instances_data (events : List Record) :
    List (String × String × String) :=
  events.foldl
    (fun acc ev =>
      match runInstancesFact ev with
      | none => acc
      | some (iid, arn, env) => updateA acc iid (arn, env))
    []

/-- The loop body of find_assume_role_events for one record: the
(sessionToken, accessKeyId) pair it contributes, or none (skipped:
decode failure, missing key, wrong event name, or role not of interest). -/
def assumeRoleFact (profile_arns : List String) (ev : Record) :
    Option (String × String) :=
  match ev with
  | none => none
  | some ct =>
  match ct.eventName with
  | none => none
  | some en =>
  if en = "AssumeRole" then
    match ct.requestParameters >>= RequestParameters.roleArn with
    | none => none
    | some role_arn =>
      if role_arn ∈ profile_arns then
        match ct.responseElements >>= ResponseElements.credentials with
        | none => none
        | some creds =>
          match creds.sessionToken, creds.accessKeyId with
          | some sid, some ak => some (sid, ak)
          | some _, none => none
          | none, _ => none
      else none
  else none

/-- find_assume_role_events: fold matching records into a dict keyed by
session token. -/
def find_assume_role_events (events : List Record)
    (profile_arns : List String) : List (String × String) :=
  events.foldl
    (fun acc ev =>
      match assumeRoleFact profile_arns ev with
      | none => acc
      | some (sid, ak) => updateA acc sid ak)
    []

/-- The parameter name extracted from one record by
find_get_parameter_events, or none when the record is skipped (decode
failure, missing key, or an event name other than GetParameter). -/
def getParameterName (ev : Record) : Option String :=
  match ev with
  | none => none
  | some ct =>
  match ct.eventName with
  | none => none
  | some en =>
  if en = "GetParameter" then ct.requestParameters >>= RequestParameters.name
  else none

/-- The inner fan-out loop of find_get_parameter_events: for every tenant
identifier of interest that is a substring of the parameter name, append
the name to the list of that tenant. -/
def addRecordParams (environment_ids : List String) (name : String)
    (pd : List (String × List String)) : List (String × List String) :=
  environment_ids.foldl
    (fun acc env_id => if strIn env_id name then appendA acc env_id name else acc)
    pd

/-- find_get_parameter_events: fold every GetParameter record through the
fan-out loop, starting from an empty defaultdict(list). -/
def find_get_parameter_events (events : List Record)
    (environment_ids : List String) : List (String × List String) :=
  events.foldl
    (fun pd ev =>
      match getParameterName ev with
      | none => pd
      | some nm => addRecordParams environment_ids nm pd)
    []

/-- One per-instance block printed by the correlation loop of analyze:
the instance data together with the full per-tenant parameter list that
the source prints under the heading Mismatched GetParameter calls. -/
structure Verdict where
  instanceId : String
  profileArn : String
  environmentId : String
  mismatchedParams : List String
  deriving DecidableEq

/-- The access list the correlation loop reads for one tenant: the
per-tenant parameter list, empty when the tenant has no entry. -/
def ownAccessList (pd : List (String × List String)) (tenant : String) :
    List String :=
  (lookupA pd tenant).getD []

/-- The has_mismatch test of analyze for one instance (line 281): some
parameter name recorded for its own tenant contains some other tenant
identifier of interest as a substring.  The surrounding membership test
`environment_id in parameter_data` collapses to the none case of the
lookup. -/
def flaggedEntry (environment_ids : List String)
    (pd : List (String × List String)) (environment_id : String) : Bool :=
  match lookupA pd environment_id with
  | none => false
  | some param_names =>
      param_names.any fun param_name =>
        environment_ids.any fun env_id =>
          strIn env_id param_name && (env_id != environment_id)

/-- The correlation loop of analyze (lines 274 to 298): one verdict per
flagged instance, in launch-dict iteration order, carrying the full
per-tenant parameter list; the exploited flag is count != 0. -/
def correlate (instance_data : List (String × String × String))
    (pd : List (String × List String)) : List Verdict × Bool :=
  let environment_ids := setOf (instance_data.map (fun e => e.2.2))
  let verdicts := instance_data.filterMap fun e =>
    if flaggedEntry environment_ids pd e.2.2 then
      some ⟨e.1, e.2.1, e.2.2, ownAccessList pd e.2.2⟩
    else none
  (verdicts, verdicts.length != 0)

/-- The observable outcome of one analyze run: the (unused by the verdict)
assume-role dict, the flagged-instance list, and the exploited flag. -/
structure AnalyzeResult where
  assumeRoleData : List (String × String)
  verdicts : List Verdict
  exploited : Bool
  deriving DecidableEq

/-- analyze: load the three event files (a missing file raises, modelled
as none and an error naming the file; a present file holds a possibly
empty list of records), run the three extractors and the correlation
loop. -/
def analyze (run_instances_events assume_role_events get_parameter_events :
    Option (List Record)) : Except String AnalyzeResult :=
  match run_instances_events with
  | none => Except.error "run_instances_events.json"
  | some re =>
  match assume_role_events with
  | none => Except.error "assume_role_events.json"
  | some ae =>
  match get_parameter_events with
  | none => Except.error "get_parameter_events.json"
  | some pe =>
  let instance_data := extract_run_instances_data re
  let profile_arns := setOf (instance_data.map (fun e => e.2.1))
  let environment_ids := setOf (instance_data.map (fun e => e.2.2))
  let assume_role_data := find_assume_role_events ae profile_arns
  let parameter_data := find_get_parameter_events pe environment_ids
  let result := correlate instance_data parameter_data
  Except.ok ⟨assume_role_data, result.1, result.2⟩

/-- Spec-side predicate: some secret name recorded in the access list of
the given tenant contains a different tenant identifier (drawn from the
supplied collection of tenant identifiers) as a substring. -/
def crossTenantHit (tenantIds : List String)
    (pd : List (String × List String)) (tenant : String) : Prop :=
  ∃ nm ∈ ownAccessList pd tenant, ∃ t ∈ tenantIds,
    strIn t nm = true ∧ t ≠ tenant

/-- All fields that extract_run_instances_data requires are present (and,
for the strings, truthy) in the record: a decodable body, response
elements, an instance set with a first item carrying the instance id, an
IAM instance profile block with an arn, and the well-known tenant tag. -/
def FieldsPresent (ev : Record) (iid arn env : String) : Prop :=
  ∃ ct re iset inst rest,
    ev = some ct ∧
    ct.responseElements = some re ∧
    re.instancesSet = some iset ∧
    iset.items = inst :: rest ∧
    inst.instanceId = some iid ∧ iid ≠ "" ∧
    (∃ prof, inst.iamInstanceProfile = some prof ∧ prof.arn = some arn) ∧
    arn ≠ "" ∧
    findEnvTag ((inst.tagSet.map TagSet.items).getD []) = some (some env) ∧
    env ≠ ""

/-- Test fixture: a fully populated launch record with the given event
name, instance id, profile arn and tenant tag value. -/
def launchRecord (en iid arn env : String) : Record :=
  some (CTEvent.mk (some en) none
    (some (ResponseElements.mk
      (some (InstancesSet.mk
        [InstanceItem.mk (some iid)
          (some (IamInstanceProfile.mk (some arn) none))
          (some (TagSet.mk
            [TagItem.mk (some "gitpod.dev/environment-id") (some env)]))]))
      none)))

/-- Test fixture: a GetParameter record requesting the given name. -/
def paramRecord (nm : String) : Record :=
  some (CTEvent.mk (some "GetParameter")
    (some (RequestParameters.mk none (some nm))) none)

/-- Test fixture: an AssumeRole record for the given role returning the
given session token and access key. -/
def assumeRecord (role sid ak : String) : Record :=
  some (CTEvent.mk (some "AssumeRole")
    (some (RequestParameters.mk (some role) none))
    (some (ResponseElements.mk none (some (Credentials.mk (some sid) (some ak))))))

/-- Soundness invariant of the per-tenant parameter index: keys come from
the supplied tenant set, and every stored name contains its key as a
substring. -/
def IndexSound (ei : List String) (pd : List (String × List String)) : Prop :=
  ∀ t l, (t, l) ∈ pd → t ∈ ei ∧ ∀ nm ∈ l, strIn t nm = true

/-! Association-list lemmas. -/

theorem lookupA_updateA {α : Type} (l : List (String × α)) (k t : String)
    (v : α) :
    lookupA (updateA l k v) t = if k = t then some v else lookupA l t := by
  induction l with
  | nil => simp [updateA, lookupA]
  | cons hd tl ih =>
    obtain ⟨k', v'⟩ := hd
    by_cases hk : k' = k
    · subst hk
      simp only [updateA, if_pos rfl, lookupA]
      by_cases ht : k' = t <;> simp [ht]
    · simp only [updateA, if_neg hk, lookupA, ih]
      by_cases ht : k' = t
      · subst ht
        have hkt : ¬ k = k' := fun h => hk h.symm
        simp [hkt]
      · simp [ht]

theorem mem_updateA {α : Type} {l : List (String × α)} {k t : String}
    {v w : α} (h : (t, w) ∈ updateA l k v) :
    (t, w) ∈ l ∨ (t = k ∧ w = v) := by
  induction l with
  | nil =>
    simp only [updateA, List.mem_singleton, Prod.mk.injEq] at h
    exact Or.inr h
  | cons hd tl ih =>
    obtain ⟨k', v'⟩ := hd
    by_cases hk : k' = k
    · subst hk
      rw [updateA, if_pos rfl] at h
      rcases List.mem_cons.1 h with h | h
      · exact Or.inr ⟨congrArg Prod.fst h, congrArg Prod.snd h⟩
      · exact Or.inl (List.mem_cons_of_mem _ h)
    · rw [updateA, if_neg hk] at h
      rcases List.mem_cons.1 h with h | h
      · exact Or.inl (List.mem_cons.2 (Or.inl h))
      · rcases ih h with h' | h'
        · exact Or.inl (List.mem_cons_of_mem _ h')
        · exact Or.inr h'

theorem fst_mem_updateA {α : Type} {l : List (String × α)} {k t : String}
    {v : α} (h : t ∈ (updateA l k v).map Prod.fst) :
    t ∈ l.map Prod.fst ∨ t = k := by
  simp only [List.mem_map] at h
  obtain ⟨⟨t', w⟩, hmem, rfl⟩ := h
  rcases mem_updateA hmem with h' | h'
  · exact Or.inl (List.mem_map.2 ⟨(t', w), h', rfl⟩)
  · exact Or.inr h'.1

theorem nodup_fst_updateA {α : Type} {l : List (String × α)}
    (h : (l.map Prod.fst).Nodup) (k : String) (v : α) :
    ((updateA l k v).map Prod.fst).Nodup := by
  induction l with
  | nil => simp [updateA]
  | cons hd tl ih =>
    obtain ⟨k', v'⟩ := hd
    simp only [List.map_cons, List.nodup_cons] at h
    by_cases hk : k' = k
    · subst hk
      simpa [updateA, List.nodup_cons] using h
    · simp only [updateA, if_neg hk, List.map_cons, List.nodup_cons]
      refine ⟨fun hmem => ?_, ih h.2⟩
      rcases fst_mem_updateA hmem with h' | h'
      · exact h.1 h'
      · exact hk h'

theorem lookupA_appendA (pd : List (String × List String)) (k v t : String) :
    lookupA (appendA pd k v) t =
      if k = t then some ((lookupA pd k).getD [] ++ [v])
      else lookupA pd t := by
  induction pd with
  | nil => simp [appendA, lookupA]
  | cons hd tl ih =>
    obtain ⟨k', vs⟩ := hd
    by_cases hk : k' = k
    · subst hk
      simp only [appendA, if_pos rfl, lookupA]
      by_cases ht : k' = t <;> simp [ht]
    · simp only [appendA, if_neg hk, lookupA, ih]
      by_cases ht : k' = t
      · subst ht
        have hkt : ¬ k = k' := fun h => hk h.symm
        simp [hkt, hk]
      · simp [ht, hk]

theorem mem_appendA {pd : List (String × List String)} {k v t : String}
    {l : List String} (h : (t, l) ∈ appendA pd k v) :
    (t, l) ∈ pd ∨
      (t = k ∧ (l = [v] ∨ ∃ l0, (k, l0) ∈ pd ∧ l = l0 ++ [v])) := by
  induction pd with
  | nil =>
    simp only [appendA, List.mem_singleton, Prod.mk.injEq] at h
    exact Or.inr ⟨h.1, Or.inl h.2⟩
  | cons hd tl ih =>
    obtain ⟨k', vs⟩ := hd
    by_cases hk : k' = k
    · subst hk
      rw [appendA, if_pos rfl] at h
      rcases List.mem_cons.1 h with h | h
      · exact Or.inr ⟨congrArg Prod.fst h,
          Or.inr ⟨vs, List.mem_cons_self _ _, congrArg Prod.snd h⟩⟩
      · exact Or.inl (List.mem_cons_of_mem _ h)
    · rw [appendA, if_neg hk] at h
      rcases List.mem_cons.1 h with h | h
      · exact Or.inl (List.mem_cons.2 (Or.inl h))
      · rcases ih h with h' | ⟨rfl, h'⟩
        · exact Or.inl (List.mem_cons_of_mem _ h')
        · rcases h' with h' | ⟨l0, hl0, rfl⟩
          · exact Or.inr ⟨rfl, Or.inl h'⟩
          · exact Or.inr ⟨rfl, Or.inr ⟨l0, List.mem_cons_of_mem _ hl0, rfl⟩⟩

theorem mem_setOf_iff (l : List String) (t : String) :
    t ∈ setOf l ↔ t ∈ l := by
  have aux : ∀ (l : List String) (acc : List String),
      t ∈ l.foldl (fun acc x => if x ∈ acc then acc else acc ++ [x]) acc ↔
        t ∈ acc ∨ t ∈ l := by
    intro l
    induction l with
    | nil => simp
    | cons a l ih =>
      intro acc
      simp only [List.foldl_cons, ih]
      by_cases ha : a ∈ acc
      · simp only [if_pos ha, List.mem_cons]
        constructor
        · rintro (h | h)
          · exact Or.inl h
          · exact Or.inr (Or.inr h)
        · rintro (h | rfl | h)
          · exact Or.inl h
          · exact Or.inl ha
          · exact Or.inr h
      · simp only [if_neg ha, List.mem_append, List.mem_singleton,
          List.mem_cons]
        tauto
  simpa [setOf] using aux l []

/-! Lemmas about the fan-out loop of find_get_parameter_events. -/

theorem addRecordParams_cons (e : String) (ei : List String) (nm : String)
    (pd : List (String × List String)) :
    addRecordParams (e :: ei) nm pd =
      addRecordParams ei nm
        (if strIn e nm then appendA pd e nm else pd) := rfl

theorem lookupA_addRecordParams_not_mem {ei : List String} {nm t : String}
    (h : t ∉ ei) (pd : List (String × List String)) :
    lookupA (addRecordParams ei nm pd) t = lookupA pd t := by
  induction ei generalizing pd with
  | nil => rfl
  | cons e ei ih =>
    simp only [List.mem_cons, not_or] at h
    rw [addRecordParams_cons, ih h.2]
    by_cases hs : strIn e nm
    · rw [if_pos hs, lookupA_appendA, if_neg (fun he => h.1 he.symm)]
    · rw [if_neg hs]

theorem lookupA_addRecordParams {ei : List String} (hnd : ei.Nodup)
    (nm : String) (pd : List (String × List String)) (t : String) :
    lookupA (addRecordParams ei nm pd) t =
      if t ∈ ei ∧ strIn t nm = true
      then some ((lookupA pd t).getD [] ++ [nm])
      else lookupA pd t := by
  induction ei generalizing pd with
  | nil => simp [addRecordParams]
  | cons e ei ih =>
    rw [addRecordParams_cons]
    rcases List.nodup_cons.1 hnd with ⟨he, hnd'⟩
    by_cases ht : t = e
    · subst ht
      rw [lookupA_addRecordParams_not_mem he]
      by_cases hs : strIn t nm
      · rw [if_pos hs, lookupA_appendA, if_pos rfl,
          if_pos ⟨List.mem_cons_self _ _, hs⟩]
      · rw [if_neg hs, if_neg (fun hc => hs hc.2)]
    · rw [ih hnd']
      have hlp : lookupA (if strIn e nm = true then appendA pd e nm else pd) t
          = lookupA pd t := by
        by_cases hs : strIn e nm
        · rw [if_pos hs, lookupA_appendA, if_neg (fun hh => ht hh.symm)]
        · rw [if_neg hs]
      have hmem : (t ∈ e :: ei) = (t ∈ ei) := by
        simp [List.mem_cons, ht]
      by_cases htei : t ∈ ei ∧ strIn t nm = true
      · rw [if_pos htei, hlp, if_pos ⟨List.mem_cons_of_mem _ htei.1, htei.2⟩]
      · rw [if_neg htei, hlp, if_neg (fun hc => htei ⟨hmem ▸ hc.1, hc.2⟩)]

theorem addRecordParams_extends (ei : List String) (nm : String)
    (pd : List (String × List String)) (t : String) :
    ((lookupA pd t).getD []) <+: ((lookupA (addRecordParams ei nm pd) t).getD []) := by
  induction ei generalizing pd with
  | nil => exact List.prefix_rfl
  | cons e ei ih =>
    rw [addRecordParams_cons]
    refine List.IsPrefix.trans ?_ (ih _)
    by_cases hs : strIn e nm
    · rw [if_pos hs, lookupA_appendA]
      by_cases ht : e = t
      · subst ht
        simp
      · rw [if_neg ht]
    · rw [if_neg hs]

/-! Single-record decomposition of the extractor folds. -/

theorem extract_run_instances_data_snoc (evs : List Record) (ev : Record) :
    extract_run_instances_data (evs ++ [ev]) =
      match runInstancesFact ev with
      | none => extract_run_instances_data evs
      | some (iid, arn, env) =>
          updateA (extract_run_instances_data evs) iid (arn, env) := by
  simp only [extract_run_instances_data, List.foldl_append, List.foldl_cons,
    List.foldl_nil]

theorem find_get_parameter_events_snoc (evs : List Record) (ev : Record)
    (ei : List String) :
    find_get_parameter_events (evs ++ [ev]) ei =
      match getParameterName ev with
      | none => find_get_parameter_events evs ei
      | some nm => addRecordParams ei nm (find_get_parameter_events evs ei) := by
  simp only [find_get_parameter_events, List.foldl_append, List.foldl_cons,
    List.foldl_nil]

/-- A record whose embedded event name is not AssumeRole (missing names
and undecodable bodies included) contributes nothing in
find_assume_role_events. -/
theorem assumeRoleFact_none_of_name {ev : Record} (pa : List String)
    (h : Option.bind ev CTEvent.eventName ≠ some "AssumeRole") :
    assumeRoleFact pa ev = none := by
  cases ev with
  | none => rfl
  | some ct =>
    simp only [Option.bind] at h
    cases hen : ct.eventName with
    | none => simp [assumeRoleFact, hen]
    | some en =>
      rw [hen] at h
      have hne : ¬ (en = "AssumeRole") := fun hh => h (by rw [hh])
      simp [assumeRoleFact, hen, hne]

/-- A record whose embedded event name is not GetParameter (missing names
and undecodable bodies included) contributes nothing in
find_get_parameter_events. -/
theorem getParameterName_none_of_name {ev : Record}
    (h : Option.bind ev CTEvent.eventName ≠ some "GetParameter") :
    getParameterName ev = none := by
  cases ev with
  | none => rfl
  | some ct =>
    simp only [Option.bind] at h
    cases hen : ct.eventName with
    | none => simp [getParameterName, hen]
    | some en =>
      rw [hen] at h
      have hne : ¬ (en = "GetParameter") := fun hh => h (by rw [hh])
      simp [getParameterName, hen, hne]

theorem find_assume_role_events_skip (evs1 evs2 : List Record) (ev : Record)
    (pa : List String) (h : assumeRoleFact pa ev = none) :
    find_assume_role_events (evs1 ++ ev :: evs2) pa =
      find_assume_role_events (evs1 ++ evs2) pa := by
  simp only [find_assume_role_events, List.foldl_append, List.foldl_cons, h]

theorem find_get_parameter_events_skip (evs1 evs2 : List Record) (ev : Record)
    (ei : List String) (h : getParameterName ev = none) :
    find_get_parameter_events (evs1 ++ ev :: evs2) ei =
      find_get_parameter_events (evs1 ++ evs2) ei := by
  simp only [find_get_parameter_events, List.foldl_append, List.foldl_cons, h]

/-- Inversion of the launch-record loop body: a materialized fact forces
every required field to be present and truthy. -/
theorem runInstancesFact_inv {ev : Record} {iid arn env : String}
    (h : runInstancesFact ev = some (iid, arn, env)) :
    FieldsPresent ev iid arn env := by
  cases ev with
  | none => exact absurd h (by simp [runInstancesFact])
  | some ct =>
    unfold runInstancesFact at h
    repeat' split at h
    all_goals try exact Option.noConfusion h
    rw [Option.some.injEq, Prod.mk.injEq, Prod.mk.injEq] at h
    obtain ⟨rfl, rfl, rfl⟩ := h
    exact ⟨_, _, _, _, _, by assumption, by assumption, by assumption,
      by assumption, by assumption, by assumption,
      ⟨_, by assumption, by assumption⟩,
      by assumption, by assumption, by assumption⟩

/-- Every entry of the launch dict was contributed by some record of the
input collection. -/
theorem mem_extract_run_instances_data {events : List Record}
    {iid arn env : String}
    (h : (iid, arn, env) ∈ extract_run_instances_data events) :
    ∃ ev ∈ events, runInstancesFact ev = some (iid, arn, env) := by
  have aux : ∀ (events : List Record)
      (acc : List (String × String × String)),
      (iid, arn, env) ∈ events.foldl
        (fun acc ev =>
          match runInstancesFact ev with
          | none => acc
          | some (iid, arn, env) => updateA acc iid (arn, env)) acc →
      (iid, arn, env) ∈ acc ∨
        ∃ ev ∈ events, runInstancesFact ev = some (iid, arn, env) := by
    intro events
    induction events with
    | nil => exact fun acc h => Or.inl h
    | cons ev evs ih =>
      intro acc h
      rw [List.foldl_cons] at h
      rcases ih _ h with h' | ⟨ev', hev', hfact⟩
      · cases hf : runInstancesFact ev with
        | none =>
          rw [hf] at h'
          exact Or.inl h'
        | some x =>
          obtain ⟨i, a, e⟩ := x
          rw [hf] at h'
          rcases mem_updateA h' with h'' | ⟨h1, h2⟩
          · exact Or.inl h''
          · refine Or.inr ⟨ev, List.mem_cons_self _ _, ?_⟩
            rw [hf, h1, show (a, e) = (arn, env) from h2.symm]
      · exact Or.inr ⟨ev', List.mem_cons_of_mem _ hev', hfact⟩
  rcases aux events [] h with h' | h'
  · exact absurd h' (List.not_mem_nil _)
  · exact h'

/-- The launch dict never holds two entries for the same instance id. -/
theorem nodup_keys_extract (events : List Record) :
    ((extract_run_instances_data events).map Prod.fst).Nodup := by
  have aux : ∀ (events : List Record)
      (acc : List (String × String × String)),
      (acc.map Prod.fst).Nodup →
      ((events.foldl
        (fun acc ev =>
          match runInstancesFact ev with
          | none => acc
          | some (iid, arn, env) => updateA acc iid (arn, env)) acc).map
            Prod.fst).Nodup := by
    intro events
    induction events with
    | nil => exact fun acc h => h
    | cons ev evs ih =>
      intro acc hacc
      rw [List.foldl_cons]
      cases hf : runInstancesFact ev with
      | none => exact ih _ hacc
      | some x =>
        obtain ⟨i, a, e⟩ := x
        exact ih _ (nodup_fst_updateA hacc i (a, e))
  exact aux events [] (by simp)

theorem indexSound_appendA {ei : List String}
    {pd : List (String × List String)} {k v : String}
    (hpd : IndexSound ei pd) (hk : k ∈ ei) (hv : strIn k v = true) :
    IndexSound ei (appendA pd k v) := by
  intro t l hmem
  rcases mem_appendA hmem with h | ⟨rfl, h⟩
  · exact hpd t l h
  · rcases h with rfl | ⟨l0, hl0, rfl⟩
    · exact ⟨hk, by simpa using hv⟩
    · refine ⟨hk, fun nm hnm => ?_⟩
      rcases List.mem_append.1 hnm with h' | h'
      · exact (hpd t l0 hl0).2 nm h'
      · rw [List.mem_singleton.1 h']
        exact hv

theorem indexSound_addRecordParams {ei0 ei : List String}
    {pd : List (String × List String)} {nm : String}
    (hsub : ∀ x ∈ ei, x ∈ ei0) (hpd : IndexSound ei0 pd) :
    IndexSound ei0 (addRecordParams ei nm pd) := by
  induction ei generalizing pd with
  | nil => exact hpd
  | cons e ei ih =>
    rw [addRecordParams_cons]
    refine ih (fun x hx => hsub x (List.mem_cons_of_mem _ hx)) ?_
    by_cases hs : strIn e nm
    · rw [if_pos hs]
      exact indexSound_appendA hpd (hsub e (List.mem_cons_self _ _)) hs
    · rwa [if_neg hs]

theorem find_get_parameter_events_sound (events : List Record)
    (ei : List String) :
    IndexSound ei (find_get_parameter_events events ei) := by
  have aux : ∀ (events : List Record) (pd : List (String × List String)),
      IndexSound ei pd →
      IndexSound ei (events.foldl
        (fun pd ev =>
          match getParameterName ev with
          | none => pd
          | some nm => addRecordParams ei nm pd) pd) := by
    intro events
    induction events with
    | nil => exact fun pd h => h
    | cons ev evs ih =>
      intro pd hpd
      rw [List.foldl_cons]
      cases hf : getParameterName ev with
      | none => exact ih _ hpd
      | some nm => exact ih _ (indexSound_addRecordParams (fun x hx => hx) hpd)
  exact aux events [] (fun t l h => absurd h (List.not_mem_nil _))

/-- Boolean-to-propositional characterization of the has_mismatch test. -/
theorem flaggedEntry_iff (ei : List String)
    (pd : List (String × List String)) (t : String) :
    flaggedEntry ei pd t = true ↔
      ∃ nm ∈ ownAccessList pd t, ∃ e ∈ ei, strIn e nm = true ∧ e ≠ t := by
  unfold flaggedEntry ownAccessList
  cases h : lookupA pd t with
  | none => simp
  | some l => simp [List.any_eq_true, Bool.and_eq_true, bne_iff_ne]

/-- Membership in the verdict list of the correlation loop. -/
theorem mem_correlate_iff (instance_data : List (String × String × String))
    (pd : List (String × List String)) (v : Verdict) :
    v ∈ (correlate instance_data pd).1 ↔
      ∃ e ∈ instance_data,
        flaggedEntry (setOf (instance_data.map fun x => x.2.2)) pd e.2.2 = true ∧
        v = ⟨e.1, e.2.1, e.2.2, ownAccessList pd e.2.2⟩ := by
  unfold correlate
  simp only [List.mem_filterMap]
  constructor
  · rintro ⟨e, he, hfe⟩
    by_cases hf :
        flaggedEntry (setOf (instance_data.map fun x => x.2.2)) pd e.2.2
    · rw [if_pos hf] at hfe
      exact ⟨e, he, hf, (Option.some.inj hfe).symm⟩
    · rw [if_neg hf] at hfe
      exact Option.noConfusion hfe
  · rintro ⟨e, he, hf, rfl⟩
    exact ⟨e, he, by rw [if_pos hf]⟩

/-- The exploited flag is set iff some launch entry passes the
has_mismatch test. -/
theorem correlate_exploited_iff
    (instance_data : List (String × String × String))
    (pd : List (String × List String)) :
    (correlate instance_data pd).2 = true ↔
      ∃ e ∈ instance_data,
        flaggedEntry (setOf (instance_data.map fun x => x.2.2)) pd e.2.2
          = true := by
  unfold correlate
  rw [bne_iff_ne, Ne, List.length_eq_zero, List.filterMap_eq_nil_iff]
  push_neg
  constructor
  · rintro ⟨e, he, hne⟩
    refine ⟨e, he, ?_⟩
    by_cases hf :
        flaggedEntry (setOf (instance_data.map fun x => x.2.2)) pd e.2.2
    · exact hf
    · exact absurd (if_neg hf) hne
  · rintro ⟨e, he, hf⟩
    exact ⟨e, he, by rw [if_pos hf]; exact Option.noConfusion⟩

/-- Bridge between the spec-side predicate and the boolean test: the set
of tenant ids and the raw list of tenant ids agree up to membership. -/
theorem crossTenantHit_iff_flagged (tl : List String)
    (pd : List (String × List String)) (t : String) :
    crossTenantHit tl pd t ↔ flaggedEntry (setOf tl) pd t = true := by
  rw [flaggedEntry_iff]
  unfold crossTenantHit
  constructor
  · rintro ⟨nm, hnm, e, he, hs, hne⟩
    exact ⟨nm, hnm, e, (mem_setOf_iff tl e).2 he, hs, hne⟩
  · rintro ⟨nm, hnm, e, he, hs, hne⟩
    exact ⟨nm, hnm, e, (mem_setOf_iff tl e).1 he, hs, hne⟩

/-! Claim theorems. -/

/-- C1: for every launch-fact mapping and secret-access index, the
correlator flags an instance if and only if at least one secret name
recorded in the access list of its own tenant contains a different tenant
identifier (drawn from the set of all launch-fact tenant ids) as a
substring, and the run-level exploited flag is true if and only if at
least one instance is flagged. -/
theorem c1_correlate_flag_iff
    (instance_data : List (String × String × String))
    (pd : List (String × List String)) :
    (∀ e ∈ instance_data,
      ((∃ ps, (⟨e.1, e.2.1, e.2.2, ps⟩ : Verdict) ∈
          (correlate instance_data pd).1) ↔
        crossTenantHit (instance_data.map fun x => x.2.2) pd e.2.2)) ∧
    ((correlate instance_data pd).2 = true ↔
      ∃ e ∈ instance_data,
        crossTenantHit (instance_data.map fun x => x.2.2) pd e.2.2) := by
  constructor
  · intro e he
    constructor
    · rintro ⟨ps, hv⟩
      rcases (mem_correlate_iff _ _ _).1 hv with ⟨e', _, hf, heq⟩
      have henv : e'.2.2 = e.2.2 := by
        have := congrArg Verdict.environmentId heq
        simpa using this.symm
      rw [← henv]
      exact (crossTenantHit_iff_flagged _ _ _).2 hf
    · intro hhit
      have hf := (crossTenantHit_iff_flagged
        (instance_data.map fun x => x.2.2) pd e.2.2).1 hhit
      exact ⟨ownAccessList pd e.2.2,
        (mem_correlate_iff _ _ _).2 ⟨e, he, hf, rfl⟩⟩
  · rw [correlate_exploited_iff]
    constructor
    · rintro ⟨e, he, hf⟩
      exact ⟨e, he, (crossTenantHit_iff_flagged _ _ _).2 hf⟩
    · rintro ⟨e, he, hhit⟩
      exact ⟨e, he, (crossTenantHit_iff_flagged _ _ _).1 hhit⟩

theorem c1_correlate_flag_iff_witness :
    ((∃ ps, (⟨"i-1", "r1", "envA", ps⟩ : Verdict) ∈
        (correlate [("i-1", "r1", "envA"), ("i-2", "r2", "envB")]
          [("envA", ["/envB/secret1"])]).1) ↔
      crossTenantHit
        ([("i-1", "r1", "envA"), ("i-2", "r2", "envB")].map fun x => x.2.2)
        [("envA", ["/envB/secret1"])] "envA") :=
  (c1_correlate_flag_iff [("i-1", "r1", "envA"), ("i-2", "r2", "envB")]
    [("envA", ["/envB/secret1"])]).1 ("i-1", "r1", "envA") (by decide)

/-- C2 counterexample: at this input the flagged instance i-1 lists the
whole access list of its tenant, including /envA/own, a name that
contains no different tenant identifier as a substring (the only tenant
ids of interest are envA and envB); the claim says the verdict holds
exactly the names containing a different tenant identifier. -/
theorem c2_counterexample :
    (correlate [("i-1", "r1", "envA"), ("i-2", "r2", "envB")]
        [("envA", ["/envB/x", "/envA/own"])]).1 =
      [⟨"i-1", "r1", "envA", ["/envB/x", "/envA/own"]⟩] ∧
    strIn "envB" "/envA/own" = false ∧
    strIn "envA" "/envA/own" = true := by decide

/-- C2 amended: for every instance flagged by the correlator, the
verdict lists the entire access list recorded for its tenant, in the
order discovered in the per-tenant access list, once per occurrence in
the underlying log; the list is not filtered to the mismatched names and
no per-matching-tenant duplication happens. -/
theorem c2_full_access_list
    (instance_data : List (String × String × String))
    (pd : List (String × List String)) (v : Verdict)
    (h : v ∈ (correlate instance_data pd).1) :
    v.mismatchedParams = ownAccessList pd v.environmentId := by
  rcases (mem_correlate_iff _ _ _).1 h with ⟨e, _, _, rfl⟩
  rfl

theorem c2_full_access_list_witness :
    (⟨"i-1", "r1", "envA", ["/envB/x", "/envA/own"]⟩ : Verdict).mismatchedParams
      = ownAccessList [("envA", ["/envB/x", "/envA/own"])] "envA" :=
  c2_full_access_list [("i-1", "r1", "envA"), ("i-2", "r2", "envB")]
    [("envA", ["/envB/x", "/envA/own"])] _ (by decide)

/-- C3 counterexample: a launch-shaped record whose embedded event name
is GetParameter, not RunInstances, still contributes a launch fact; the
launch extractor never consults the event name. -/
theorem c3_counterexample :
    extract_run_instances_data
        [launchRecord "GetParameter" "i-1" "arn1" "envA"] =
      [("i-1", "arn1", "envA")] ∧
    Option.bind (launchRecord "GetParameter" "i-1" "arn1" "envA")
        CTEvent.eventName = some "GetParameter" := by decide

/-- C3 amended: the assume-role and secret-read extractors filter the
records they are given by event name: a record whose embedded event name
is not the expected one contributes no fact to their output, for every
input collection; the launch extractor performs no event-name check (see
the C3 counterexample). -/
theorem c3_name_filtered (evs1 evs2 : List Record) (ev : Record)
    (pa ei : List String)
    (h1 : Option.bind ev CTEvent.eventName ≠ some "AssumeRole")
    (h2 : Option.bind ev CTEvent.eventName ≠ some "GetParameter") :
    find_assume_role_events (evs1 ++ ev :: evs2) pa =
      find_assume_role_events (evs1 ++ evs2) pa ∧
    find_get_parameter_events (evs1 ++ ev :: evs2) ei =
      find_get_parameter_events (evs1 ++ evs2) ei :=
  ⟨find_assume_role_events_skip _ _ _ _ (assumeRoleFact_none_of_name pa h1),
   find_get_parameter_events_skip _ _ _ _ (getParameterName_none_of_name h2)⟩

theorem c3_name_filtered_witness :
    find_assume_role_events
        ([assumeRecord "r1" "s1" "k1", paramRecord "/envA/x"] ++
          launchRecord "RunInstances" "i-1" "r1" "envA" :: []) ["r1"] =
      find_assume_role_events
        ([assumeRecord "r1" "s1" "k1", paramRecord "/envA/x"] ++ []) ["r1"] ∧
    find_get_parameter_events
        ([assumeRecord "r1" "s1" "k1", paramRecord "/envA/x"] ++
          launchRecord "RunInstances" "i-1" "r1" "envA" :: []) ["envA"] =
      find_get_parameter_events
        ([assumeRecord "r1" "s1" "k1", paramRecord "/envA/x"] ++ []) ["envA"] :=
  c3_name_filtered [assumeRecord "r1" "s1" "k1", paramRecord "/envA/x"] []
    (launchRecord "RunInstances" "i-1" "r1" "envA") ["r1"] ["envA"]
    (by decide) (by decide)

/-- C4 counterexample: with all three input collections present but
empty, the run does not abort: analyze succeeds with no verdicts and
reports the vulnerability as not exploited. -/
theorem c4_counterexample :
    analyze (some []) (some []) (some []) = Except.ok ⟨[], [], false⟩ := rfl

/-- C4 amended: an absent input collection aborts the whole run with an
explicit failure naming the first missing file; a present but empty
collection is not rejected and the run can report no vulnerability (see
the C4 counterexample). -/
theorem c4_absent_aborts (a b c : Option (List Record))
    (h : a = none ∨ b = none ∨ c = none) :
    ∃ msg, analyze a b c = Except.error msg := by
  rcases h with rfl | rfl | rfl
  · exact ⟨_, rfl⟩
  · cases a with
    | none => exact ⟨_, rfl⟩
    | some re => exact ⟨_, rfl⟩
  · cases a with
    | none => exact ⟨_, rfl⟩
    | some re =>
      cases b with
      | none => exact ⟨_, rfl⟩
      | some ae => exact ⟨_, rfl⟩

theorem c4_absent_aborts_witness :
    ∃ msg, analyze none (some []) (some []) = Except.error msg :=
  c4_absent_aborts none (some []) (some []) (Or.inl rfl)

/-- C5: an entry appears in the launch mapping only when it was
materialized from a record in which instance id, profile arn and the
well-known tenant tag are all present (and not the empty string): a
record missing any of these contributes no entry, and no entry ever
carries a null or defaulted field. -/
theorem c5_all_fields_present (events : List Record) (iid arn env : String)
    (h : (iid, arn, env) ∈ extract_run_instances_data events) :
    iid ≠ "" ∧ arn ≠ "" ∧ env ≠ "" ∧
      ∃ ev ∈ events, runInstancesFact ev = some (iid, arn, env) ∧
        FieldsPresent ev iid arn env := by
  obtain ⟨ev, hev, hfact⟩ := mem_extract_run_instances_data h
  obtain ⟨ct, re, iset, inst, rest, he1, he2, he3, he4, he5, hiid, hp,
    harn, htag, henv⟩ := runInstancesFact_inv hfact
  exact ⟨hiid, harn, henv, ev, hev, hfact, runInstancesFact_inv hfact⟩

theorem c5_all_fields_present_witness :
    ("i-1" : String) ≠ "" ∧ ("r1" : String) ≠ "" ∧ ("envA" : String) ≠ "" ∧
      ∃ ev ∈ [launchRecord "RunInstances" "i-1" "r1" "envA"],
        runInstancesFact ev = some ("i-1", "r1", "envA") ∧
        FieldsPresent ev "i-1" "r1" "envA" :=
  c5_all_fields_present [launchRecord "RunInstances" "i-1" "r1" "envA"]
    "i-1" "r1" "envA" (by decide)

/-- C6: a secret-read record whose name contains two distinct tenant
identifiers of the supplied set as substrings appends that name once to
the list of each of those tenants. -/
theorem c6_fanout (evs : List Record) (ev : Record) (ei : List String)
    (nm t1 t2 : String) (hnd : ei.Nodup)
    (hev : getParameterName ev = some nm)
    (h1 : t1 ∈ ei) (h2 : t2 ∈ ei) (_hne : t1 ≠ t2)
    (hs1 : strIn t1 nm = true) (hs2 : strIn t2 nm = true) :
    lookupA (find_get_parameter_events (evs ++ [ev]) ei) t1 =
      some ((lookupA (find_get_parameter_events evs ei) t1).getD [] ++ [nm]) ∧
    lookupA (find_get_parameter_events (evs ++ [ev]) ei) t2 =
      some ((lookupA (find_get_parameter_events evs ei) t2).getD [] ++ [nm]) := by
  constructor
  · simp only [find_get_parameter_events_snoc, hev]
    rw [lookupA_addRecordParams hnd, if_pos ⟨h1, hs1⟩]
  · simp only [find_get_parameter_events_snoc, hev]
    rw [lookupA_addRecordParams hnd, if_pos ⟨h2, hs2⟩]

theorem c6_fanout_witness :
    lookupA (find_get_parameter_events ([] ++ [paramRecord "/envA/envB/x"])
        ["envA", "envB"]) "envA" =
      some ((lookupA (find_get_parameter_events [] ["envA", "envB"])
        "envA").getD [] ++ ["/envA/envB/x"]) ∧
    lookupA (find_get_parameter_events ([] ++ [paramRecord "/envA/envB/x"])
        ["envA", "envB"]) "envB" =
      some ((lookupA (find_get_parameter_events [] ["envA", "envB"])
        "envB").getD [] ++ ["/envA/envB/x"]) :=
  c6_fanout [] (paramRecord "/envA/envB/x") ["envA", "envB"]
    "/envA/envB/x" "envA" "envB" (by decide) (by decide) (by decide)
    (by decide) (by decide) (by decide) (by decide)

/-- C7: instance ids are unique across the launch mapping, and when a
valid launch record arrives last for an instance id, the retained fact is
the one of that last-parsed record. -/
theorem c7_last_record_wins (events evs : List Record) (ev : Record)
    (iid arn env : String) (h : runInstancesFact ev = some (iid, arn, env)) :
    ((extract_run_instances_data events).map Prod.fst).Nodup ∧
    lookupA (extract_run_instances_data (evs ++ [ev])) iid =
      some (arn, env) := by
  refine ⟨nodup_keys_extract events, ?_⟩
  simp only [extract_run_instances_data_snoc, h]
  rw [lookupA_updateA, if_pos rfl]

theorem c7_last_record_wins_witness :
    ((extract_run_instances_data
        [launchRecord "RunInstances" "i-1" "r1" "envA"]).map Prod.fst).Nodup ∧
    lookupA (extract_run_instances_data
        ([launchRecord "RunInstances" "i-1" "r1" "envA"] ++
          [launchRecord "RunInstances" "i-1" "r9" "envC"])) "i-1" =
      some ("r9", "envC") :=
  c7_last_record_wins [launchRecord "RunInstances" "i-1" "r1" "envA"]
    [launchRecord "RunInstances" "i-1" "r1" "envA"]
    (launchRecord "RunInstances" "i-1" "r9" "envC")
    "i-1" "r9" "envC" (by decide)

/-- C8: appending a matching secret-read record to the input appends
exactly the new name at the end of the list of the corresponding tenant,
and the previous list of every tenant remains a prefix of its new list
(no entry is removed or reordered). -/
theorem c8_monotonic (evs : List Record) (ev : Record) (ei : List String)
    (nm t : String) (hnd : ei.Nodup)
    (hev : getParameterName ev = some nm)
    (ht : t ∈ ei) (hs : strIn t nm = true) :
    lookupA (find_get_parameter_events (evs ++ [ev]) ei) t =
      some ((lookupA (find_get_parameter_events evs ei) t).getD [] ++ [nm]) ∧
    ∀ t', ((lookupA (find_get_parameter_events evs ei) t').getD []) <+:
      ((lookupA (find_get_parameter_events (evs ++ [ev]) ei) t').getD []) := by
  constructor
  · simp only [find_get_parameter_events_snoc, hev]
    rw [lookupA_addRecordParams hnd, if_pos ⟨ht, hs⟩]
  · intro t'
    simp only [find_get_parameter_events_snoc, hev]
    exact addRecordParams_extends ei nm (find_get_parameter_events evs ei) t'

theorem c8_monotonic_witness :
    lookupA (find_get_parameter_events
        ([paramRecord "/envA/z"] ++ [paramRecord "/envA/x"]) ["envA", "envB"])
        "envA" =
      some ((lookupA (find_get_parameter_events [paramRecord "/envA/z"]
        ["envA", "envB"]) "envA").getD [] ++ ["/envA/x"]) ∧
    ((lookupA (find_get_parameter_events [paramRecord "/envA/z"]
        ["envA", "envB"]) "envA").getD []) <+:
      ((lookupA (find_get_parameter_events
        ([paramRecord "/envA/z"] ++ [paramRecord "/envA/x"]) ["envA", "envB"])
        "envA").getD []) :=
  ⟨(c8_monotonic [paramRecord "/envA/z"] (paramRecord "/envA/x")
      ["envA", "envB"] "/envA/x" "envA" (by decide) (by decide) (by decide)
      (by decide)).1,
   (c8_monotonic [paramRecord "/envA/z"] (paramRecord "/envA/x")
      ["envA", "envB"] "/envA/x" "envA" (by decide) (by decide) (by decide)
      (by decide)).2 "envA"⟩

/-- C9: the verdict list and the exploited flag of analyze are identical
across runs that differ only in the assume-role event collection: the
session and access-key data never gates the reported vulnerability. -/
theorem c9_verdict_ignores_assume (re ae ae' pe : List Record) :
    (analyze (some re) (some ae) (some pe)).map
        (fun r => (r.verdicts, r.exploited)) =
      (analyze (some re) (some ae') (some pe)).map
        (fun r => (r.verdicts, r.exploited)) := rfl

/-- C10: every entry of the secret-access index has its key drawn from
the supplied set of tenant identifiers, and every secret name stored
under a tenant contains that tenant identifier as a substring. -/
theorem c10_index_sound (events : List Record) (ei : List String)
    (t : String) (l : List String)
    (h : (t, l) ∈ find_get_parameter_events events ei) :
    t ∈ ei ∧ ∀ nm ∈ l, strIn t nm = true :=
  find_get_parameter_events_sound events ei t l h

theorem c10_index_sound_witness :
    ("envA" : String) ∈ ["envA", "envB"] ∧ strIn "envA" "/envA/x" = true :=
  ⟨(c10_index_sound [paramRecord "/envA/x"] ["envA", "envB"]
      "envA" ["/envA/x"] (by decide)).1,
   (c10_index_sound [paramRecord "/envA/x"] ["envA", "envB"]
      "envA" ["/envA/x"] (by decide)).2 "/envA/x" (by decide)⟩

end CloudTrail
